import Mathlib

/-!
Shallow embedding of the jobboard backend (Express + Mongoose) route handlers
and schemas, and proofs about the claims of its specification.

Conventions of the embedding:
* Mongo ObjectIds, user ids and filenames are strings; the database is an
  explicit record of lists (jobs, applications); file storage is the list of
  filenames present in the uploads directory.
* Each route handler becomes a pure function from the request data and the
  database state to a response (status, success flag, message) and, for
  mutating handlers, the successor state.  The auth middleware (protect,
  roleAuthorization) is not re-modelled: handlers receive the resolved
  user id and role, as req.user provides them after the middleware ran.
* Mongoose validation on save is modelled faithfully: a field of type String
  declared required rejects the empty string (Mongoose checkRequired for
  strings demands a nonempty string), and a thrown validation failure is
  answered by the catch-all of the handler with a 500 response.
* bcrypt hashing and comparison are abstract function parameters, since they
  are external primitives with a fixed contract.
-/

namespace JobBoard

/-- Whitespace as removed by the JavaScript String.prototype.trim used in
authRoutes.js (space, tab, and line terminators). -/
def jsWS (c : Char) : Bool :=
  c == ' ' || c == '\t' || c == '\n' || c == '\r' || c == '\x0b' || c == '\x0c'

/-- Trim on character lists: drop leading and trailing whitespace. -/
def trimChars (cs : List Char) : List Char :=
  ((cs.dropWhile jsWS).reverse.dropWhile jsWS).reverse

/-- Model of the JavaScript String.prototype.trim call. -/
def jsTrim (s : String) : String :=
  ⟨trimChars s.data⟩

/-- Model of the JavaScript String.prototype.toLowerCase call, character by
character (ASCII case folding, which covers the identifiers considered). -/
def jsToLower (s : String) : String :=
  ⟨s.data.map Char.toLower⟩

def isHexChar (c : Char) : Bool :=
  (('0' ≤ c && c ≤ '9') || ('a' ≤ c && c ≤ 'f') || ('A' ≤ c && c ≤ 'F'))

/-- Model of mongoose.Types.ObjectId.isValid on a string argument: a 24
character hex string, or any 12 character string. -/
def isValidObjectId (s : String) : Bool :=
  s.length == 12 || (s.length == 24 && s.data.all isHexChar)

/-- Model of path.extname restricted to plain file names: the substring from
the last dot to the end, empty when there is no dot or the only dot leads
the name. -/
def extnameOf (s : String) : String :=
  let extRev := s.data.reverse.takeWhile (fun c => c != '.')
  if extRev.length + 1 < s.data.length then ⟨'.' :: extRev.reverse⟩ else ""

/-- Content type selection of the resume download handler
(applicationRoutes.js, GET /resume/:filename). -/
def contentTypeFor (filename : String) : String :=
  let ext := jsToLower (extnameOf filename)
  if ext == ".pdf" then "application/pdf"
  else if ext == ".doc" then "application/msword"
  else if ext == ".docx" then
    "application/vnd.openxmlformats-officedocument.wordprocessingml.document"
  else "application/octet-stream"

/-- A job document, after jobModel.js (jobSchema). -/
structure Job where
  id : String
  title : String
  company : String
  salary : String
  location : String
  description : String
  postedBy : String
  applicationCount : Nat
  skillsRequired : List String
  jobType : String
deriving Repr, DecidableEq

/-- An application document, after applicationModel.js (applicationSchema). -/
structure Application where
  id : String
  job : String
  user : String
  resume : String
  coverLetter : String
  status : String
deriving Repr, DecidableEq

/-- A user document, after the User model as the spec describes it; the
password field holds the stored hash, selected with +password at login. -/
structure User where
  id : String
  name : String
  email : String
  password : Option String
  role : String
deriving Repr, DecidableEq

/-- An HTTP JSON response reduced to the fields every handler sets. -/
structure Response where
  status : Nat
  success : Bool
  message : String
deriving Repr, DecidableEq

/-- The document database: the Job and Application collections. -/
structure DB where
  jobs : List Job
  apps : List Application
deriving Repr, DecidableEq

/-- Job.findById. -/
def findJobById (db : DB) (jobId : String) : Option Job :=
  db.jobs.find? (fun j => j.id == jobId)

/-- Application.findOne on the (job, user) pair, as the duplicate check of
the submission handler issues it. -/
def findApplication (db : DB) (jobId uid : String) : Option Application :=
  db.apps.find? (fun a => a.job == jobId && a.user == uid)

/-- Job.findByIdAndUpdate with an increment of applicationCount: updates the
single document whose id matches (Mongo ids are unique keys, so at most the
first match is the match). -/
def incApplicationCount : List Job → String → List Job
  | [], _ => []
  | j :: rest, jobId =>
      if j.id = jobId then
        { j with applicationCount := j.applicationCount + 1 } :: rest
      else
        j :: incApplicationCount rest jobId

def validStatuses : List String := ["pending", "reviewed", "rejected", "accepted"]

/-- Mongoose validation run by application.save() against applicationSchema:
job and user are always set by the handler; resume and coverLetter are
required strings, and a required string must be nonempty; status must be a
member of the schema enum. -/
def applicationSchemaValidates (a : Application) : Bool :=
  a.resume != "" && a.coverLetter != "" && validStatuses.contains a.status

/-- The POST /api/applications handler of applicationRoutes.js, after
protect and roleAuthorization([jobSeeker]) admitted the caller.
Arguments: the database, the caller id (req.user.id), the uploaded file
name (req.file, none when no file was attached), the jobId and coverLetter
body fields (none when absent; an empty jobId is falsy in the source and
treated as absent), the id Mongo assigns to the new document, and whether
the database round trip for the count increment succeeds (its failure is
what the catch-all of the handler turns into a 500 response). -/
def submitApplication (db : DB) (uid : String) (file : Option String)
    (jobIdField : Option String) (coverLetter : Option String)
    (newId : String) (incOk : Bool) : Response × DB :=
  match file with
  | none => (⟨400, false, "Resume file is required"⟩, db)
  | some filename =>
    match jobIdField with
    | none => (⟨400, false, "Job ID is required"⟩, db)
    | some jobId =>
      if jobId = "" then (⟨400, false, "Job ID is required"⟩, db)
      else if ¬ (isValidObjectId jobId = true) then
        (⟨400, false, "Invalid job ID format"⟩, db)
      else
        match findJobById db jobId with
        | none => (⟨404, false, "Job not found"⟩, db)
        | some _ =>
          match findApplication db jobId uid with
          | some _ => (⟨400, false, "You have already applied for this job"⟩, db)
          | none =>
            let app : Application :=
              { id := newId, job := jobId, user := uid, resume := filename,
                coverLetter := (coverLetter.getD ""), status := "pending" }
            if applicationSchemaValidates app then
              let db1 : DB := { db with apps := db.apps ++ [app] }
              if incOk then
                (⟨201, true, "Application submitted successfully"⟩,
                 { db1 with jobs := incApplicationCount db1.jobs jobId })
              else
                (⟨500, false, "Server error during application submission"⟩, db1)
            else
              (⟨500, false, "Server error during application submission"⟩, db)

/-- One submission request: the data of one POST /api/applications call. -/
structure SubmitReq where
  uid : String
  file : Option String
  jobIdField : Option String
  coverLetter : Option String
  newId : String
  incOk : Bool
deriving Repr

/-- A sequence of submission requests applied to the database in order. -/
def runSubmits (db : DB) (reqs : List SubmitReq) : DB :=
  reqs.foldl
    (fun d r =>
      (submitApplication d r.uid r.file r.jobIdField r.coverLetter r.newId r.incOk).2)
    db

/-- The invariant: at most one Application per (job, user) pair. -/
def uniquePairs (apps : List Application) : Prop :=
  apps.Pairwise (fun a b => ¬ (a.job = b.job ∧ a.user = b.user))

instance (apps : List Application) : Decidable (uniquePairs apps) :=
  inferInstanceAs
    (Decidable (apps.Pairwise (fun a b : Application => ¬ (a.job = b.job ∧ a.user = b.user))))

/-- The Application.findOne filter of the resume download handler: the
application must reference the requested filename, and the requester must be
its applicant or the poster of some job that is the application's job (the
source collects Job.find with postedBy equal to the requester and matches
the application's job against those ids). -/
def resumeAccessible (db : DB) (uid filename : String) (a : Application) : Bool :=
  a.resume == filename &&
    (a.user == uid || db.jobs.any (fun j => j.postedBy == uid && j.id == a.job))

/-- The GET /api/applications/resume/:filename handler of
applicationRoutes.js, after protect admitted the caller.  files is the set
of file names present in the uploads directory; the second component of the
result is the content type sent with the file. -/
def getResume (db : DB) (files : List String) (uid filename : String) :
    Response × Option String :=
  match db.apps.find? (resumeAccessible db uid filename) with
  | none => (⟨403, false, "Not authorized to access this file"⟩, none)
  | some _ =>
    if ¬ (files.contains filename = true) then
      (⟨404, false, "Resume file not found"⟩, none)
    else
      (⟨200, true, ""⟩, some (contentTypeFor filename))

/-- The GET /api/applications/job/:jobId handler of applicationRoutes.js,
after protect and roleAuthorization([company]) admitted the caller.  The
source runs Job.findOne with both the id and postedBy in one filter, and
answers 404 when that single query finds nothing; the second component is
the application list returned on success, newest first in the source
(ordering is not modelled). -/
def getApplicationsForJob (db : DB) (uid jobId : String) :
    Response × Option (List Application) :=
  if ¬ (isValidObjectId jobId = true) then
    (⟨400, false, "Invalid job ID format"⟩, none)
  else
    match db.jobs.find? (fun j => j.id == jobId && j.postedBy == uid) with
    | none => (⟨404, false, "Job not found or not authorized"⟩, none)
    | some _ =>
      (⟨200, true, ""⟩, some (db.apps.filter (fun a => a.job == jobId)))

/-- The module names bound by the require statements at the top of
jobRoutes.js: express, the Job model, and the two middleware functions.
mongoose is not among them. -/
def jobRoutesRequires : List String :=
  ["express", "Job", "protect", "roleAuthorization"]

def jobRoutesHasMongoose : Bool :=
  jobRoutesRequires.contains "mongoose"

/-- The GET /api/jobs/:id handler of jobRoutes.js, after protect admitted
the caller.  Its first statement reads mongoose.Types.ObjectId.isValid, but
jobRoutes.js never requires mongoose, so in the source that name is unbound:
the read raises a ReferenceError inside the try block and the catch block
answers 500.  The remaining branches transcribe the rest of the handler,
reachable only if the module bound mongoose. -/
def getJobById (db : DB) (uid role idStr : String) : Response × Option Job :=
  if ¬ (jobRoutesHasMongoose = true) then
    (⟨500, false, "Server error while fetching job"⟩, none)
  else if ¬ (isValidObjectId idStr = true) then
    (⟨400, false, "Invalid job ID format"⟩, none)
  else
    match findJobById db idStr with
    | none => (⟨404, false, "Job not found"⟩, none)
    | some j =>
      if role = "company" ∧ ¬ (j.postedBy = uid) then
        (⟨403, false, "Not authorized to view this job"⟩, none)
      else
        (⟨200, true, ""⟩, some j)

/-- A route pattern of the router: a literal segment or a named parameter
such as :id, which matches every segment. -/
inductive RoutePattern where
  | lit (s : String)
  | param
deriving Repr, DecidableEq

def patternMatches : RoutePattern → String → Bool
  | RoutePattern.lit s, seg => s == seg
  | RoutePattern.param, _ => true

/-- The GET handlers a single path segment can reach in jobRoutes.js. -/
inductive JobGetHandler where
  | byId
  | mine
deriving Repr, DecidableEq

/-- The single-segment GET routes of jobRoutes.js in registration order:
the file registers the parameterized /:id route before /my. -/
def jobGetRoutes : List (RoutePattern × JobGetHandler) :=
  [(RoutePattern.param, JobGetHandler.byId),
   (RoutePattern.lit "my", JobGetHandler.mine)]

/-- Express dispatch for GET /api/jobs/SEG: the first registered route whose
pattern matches the segment wins. -/
def dispatchJobGet (seg : String) : Option JobGetHandler :=
  (jobGetRoutes.find? (fun pr => patternMatches pr.1 seg)).map Prod.snd

/-- The query of the GET /api/jobs/my handler: jobs with postedBy equal to
the caller. -/
def listMyJobs (db : DB) (uid : String) : List Job :=
  db.jobs.filter (fun j => j.postedBy == uid)

/-- GET /api/jobs/SEG as the router resolves it for an authenticated caller:
dispatch picks the handler, the handler computes the response; the second
component is the job list of the /my handler when that one answers. -/
def handleJobGet (db : DB) (uid role seg : String) :
    Response × Option (List Job) :=
  match dispatchJobGet seg with
  | some JobGetHandler.byId => ((getJobById db uid role seg).1, none)
  | some JobGetHandler.mine => (⟨200, true, ""⟩, some (listMyJobs db uid))
  | none => (⟨404, false, ""⟩, none)

/-- Domain part check of the signup email regex: at least one character
before some dot and at least one after it. -/
def hasInnerDot (cs : List Char) : Bool :=
  match cs with
  | [] => false
  | _ :: rest => rest.dropLast.contains '.'

/-- Model of the signup email regex: one or more characters that are neither
whitespace nor an at sign, then exactly one at sign, then a domain of the
same character class containing a dot with material on both sides. -/
def validEmailFormat (s : String) : Bool :=
  let lpart := s.data.takeWhile (fun c => c != '@')
  match s.data.dropWhile (fun c => c != '@') with
  | [] => false
  | _ :: dpart =>
      lpart.length > 0 && lpart.all (fun c => ! jsWS c) &&
      dpart.all (fun c => ! jsWS c && c != '@') && hasInnerDot dpart

/-- The validateSignup middleware of authRoutes.js: missing or empty fields,
a malformed email, or a password of fewer than 6 characters (measured before
any trimming) are rejected; none means the request passes to the handler. -/
def validateSignup (name email password : Option String) : Option Response :=
  if name.getD "" = "" ∨ email.getD "" = "" ∨ password.getD "" = "" then
    some ⟨400, false, "All fields are required"⟩
  else if ¬ (validEmailFormat (email.getD "") = true) then
    some ⟨400, false, "Invalid email format"⟩
  else if (password.getD "").length < 6 then
    some ⟨400, false, "Password must be at least 6 characters"⟩
  else
    none

/-- The POST /api/auth/signup handler of authRoutes.js behind validateSignup.
hash is the salted bcrypt hash (an external primitive, abstract here); the
result is the response and the successor user collection.  User.create is
modelled as appending the record; userModel.js is not among the sources, so
the user document carries the fields the handler supplies, as the spec
describes the User entity. -/
def signup (users : List User) (hash : String → String)
    (name email password role : Option String) (newId : String) :
    Response × List User :=
  match validateSignup name email password with
  | some r => (r, users)
  | none =>
    let n := jsTrim (name.getD "")
    let e := jsToLower (jsTrim (email.getD ""))
    let p := jsTrim (password.getD "")
    let rawRole := role.getD "jobSeeker"
    let rl := jsTrim (if rawRole = "" then "jobSeeker" else rawRole)
    if users.any (fun u => u.email == e) then
      (⟨400, false, "Email already registered"⟩, users)
    else
      (⟨201, true, "Registration successful"⟩,
       users ++ [{ id := newId, name := n, email := e,
                   password := some (hash p), role := rl }])

/-- The POST /api/auth/login handler of authRoutes.js.  verify is
bcrypt.compare (abstract); the stored user record is looked up by the
trimmed, lowercased email, and the trimmed password is compared against the
stored hash. -/
def login (users : List User) (verify : String → String → Bool)
    (email password : Option String) : Response :=
  let e := (email.map (fun s => jsToLower (jsTrim s))).getD ""
  let p := (password.map jsTrim).getD ""
  if e = "" ∨ p = "" then
    ⟨400, false, "Email and password required"⟩
  else
    match users.find? (fun u => u.email == e) with
    | none => ⟨400, false, "Invalid credentials"⟩
    | some u =>
      match u.password with
      | none => ⟨400, false, "Invalid credentials"⟩
      | some h =>
        if verify p h then ⟨200, true, "Login successful"⟩
        else ⟨400, false, "Invalid credentials"⟩

/-- A job record with the required free-text fields filled with fixed
values, for concrete test states. -/
def mkJob (id postedBy : String) (count : Nat) : Job :=
  { id := id, title := "t", company := "c", salary := "s", location := "l",
    description := "d", postedBy := postedBy, applicationCount := count,
    skillsRequired := [], jobType := "full-time" }

/-- Every character of the string is JavaScript whitespace. -/
def allWhitespace (s : String) : Prop :=
  ∀ c ∈ s.data, jsWS c = true

instance (s : String) : Decidable (allWhitespace s) :=
  inferInstanceAs (Decidable (∀ c ∈ s.data, jsWS c = true))

/-! Concrete states used to instantiate the theorems below. -/

def c1wJid : String := "aaaaaaaaaaaaaaaaaaaaaaaa"

def c1wApp : Application :=
  { id := "app1", job := c1wJid, user := "u1", resume := "r.pdf",
    coverLetter := "hi", status := "pending" }

def c1wDb : DB := ⟨[mkJob c1wJid "comp1" 1], [c1wApp]⟩

def c1wReqs : List SubmitReq :=
  [⟨"u2", some "s.pdf", some c1wJid, some "cl", "app2", true⟩,
   ⟨"u2", some "s.pdf", some c1wJid, some "cl", "app3", true⟩]

def c2xJid : String := "bbbbbbbbbbbbbbbbbbbbbbbb"

def c2xDb : DB := ⟨[mkJob c2xJid "comp2" 0], []⟩

def c2wJid : String := "cccccccccccccccccccccccc"

def c2wDb : DB := ⟨[mkJob c2wJid "comp3" 0], []⟩

def c3xJid : String := "dddddddddddddddddddddddd"

def c3xJob : Job := mkJob c3xJid "companyA" 0

def c3xDb : DB := ⟨[c3xJob], []⟩

def c4wJid : String := "eeeeeeeeeeeeeeeeeeeeeeee"

def c4wApp : Application :=
  { id := "app4", job := c4wJid, user := "owner4", resume := "r4.pdf",
    coverLetter := "cl", status := "pending" }

def c4wDb : DB := ⟨[mkJob c4wJid "comp4" 1], [c4wApp]⟩

def c4xDb : DB := ⟨[], []⟩

def c5Jid : String := "ffffffffffffffffffffffff"

def c5Db : DB := ⟨[mkJob c5Jid "comp5" 0], []⟩

def c8User : User := ⟨"u2", "Bob", "b@x.com", some "h1", "jobSeeker"⟩

def c9Jid : String := "0123456789ab0123456789ab"

def c9Db : DB := ⟨[mkJob c9Jid "comp9" 0], []⟩

theorem dropWhile_all_nil {f : Char → Bool} {l : List Char}
    (h : ∀ c ∈ l, f c = true) : l.dropWhile f = [] :=
  List.dropWhile_eq_nil_iff.mpr h

theorem trimChars_pad (l p r : List Char)
    (hl : ∀ c ∈ l, jsWS c = true) (hr : ∀ c ∈ r, jsWS c = true) :
    trimChars (l ++ (p ++ r)) = trimChars p := by
  unfold trimChars
  rw [List.dropWhile_append_of_pos hl]
  by_cases hp : ∀ c ∈ p, jsWS c = true
  · rw [List.dropWhile_append_of_pos hp, dropWhile_all_nil hr, dropWhile_all_nil hp]
  · have hne : p.dropWhile jsWS ≠ [] := fun hnil => hp (List.dropWhile_eq_nil_iff.mp hnil)
    rw [List.dropWhile_append, if_neg (by simpa using hne), List.reverse_append,
      List.dropWhile_append_of_pos (fun c hc => hr c (List.mem_reverse.mp hc))]

theorem jsTrim_pad (l p r : String)
    (hl : allWhitespace l) (hr : allWhitespace r) :
    jsTrim (l ++ p ++ r) = jsTrim p := by
  unfold jsTrim
  rw [String.data_append, String.data_append, List.append_assoc,
    trimChars_pad _ _ _ hl hr]

theorem map_inc_no_match (rest : List Job) (jobId : String)
    (h : ∀ x ∈ rest, x.id ≠ jobId) :
    rest.map (fun j =>
        if j.id = jobId then
          { j with applicationCount := j.applicationCount + 1 } else j) = rest := by
  induction rest with
  | nil => rfl
  | cons x xs ih =>
    simp only [List.map_cons, if_neg (h x (List.mem_cons_self x xs))]
    rw [ih (fun y hy => h y (List.mem_cons_of_mem x hy))]

theorem incApplicationCount_eq_map (jobs : List Job) (jobId : String)
    (hnd : (jobs.map Job.id).Nodup) :
    incApplicationCount jobs jobId =
      jobs.map (fun j =>
        if j.id = jobId then
          { j with applicationCount := j.applicationCount + 1 } else j) := by
  induction jobs with
  | nil => rfl
  | cons j rest ih =>
    simp only [List.map_cons, List.nodup_cons] at hnd
    by_cases hj : j.id = jobId
    · simp only [incApplicationCount, if_pos hj, List.map_cons]
      rw [map_inc_no_match rest jobId
        (fun x hx hxe => hnd.1 (by rw [hj, ← hxe]; exact List.mem_map_of_mem Job.id hx))]
    · simp only [incApplicationCount, if_neg hj, List.map_cons]
      rw [ih hnd.2]

/-- The submission handler either leaves the application collection as it
was, or appends exactly one new pending application for a pair that had
none. -/
theorem submit_state_cases (db : DB) (uid : String)
    (file jobIdField coverLetter : Option String) (newId : String) (incOk : Bool) :
    (submitApplication db uid file jobIdField coverLetter newId incOk).2.apps = db.apps ∨
    (∃ filename jobId, file = some filename ∧ jobIdField = some jobId ∧
      findApplication db jobId uid = none ∧
      (submitApplication db uid file jobIdField coverLetter newId incOk).2.apps =
        db.apps ++ [{ id := newId, job := jobId, user := uid, resume := filename,
                      coverLetter := coverLetter.getD "", status := "pending" }]) := by
  rcases file with _ | filename
  · exact Or.inl rfl
  rcases jobIdField with _ | jobId
  · exact Or.inl rfl
  simp only [submitApplication]
  by_cases h1 : jobId = ""
  · rw [if_pos h1]; exact Or.inl rfl
  rw [if_neg h1]
  by_cases h2 : isValidObjectId jobId = true
  · rw [if_neg (not_not_intro h2)]
    rcases hjob : findJobById db jobId with _ | j
    · exact Or.inl rfl
    rcases happ : findApplication db jobId uid with _ | a0
    · by_cases h3 : applicationSchemaValidates
        { id := newId, job := jobId, user := uid, resume := filename,
          coverLetter := coverLetter.getD "", status := "pending" } = true
      · rw [if_pos h3]
        refine Or.inr ⟨filename, jobId, rfl, rfl, happ, ?_⟩
        by_cases h4 : incOk = true
        · rw [if_pos h4]
        · rw [if_neg h4]
      · rw [if_neg h3]
        exact Or.inl rfl
    · exact Or.inl rfl
  · rw [if_pos h2]
    exact Or.inl rfl

/-- One submission preserves the at-most-one-per-pair invariant. -/
theorem submit_preserves_uniquePairs (db : DB) (uid : String)
    (file jobIdField coverLetter : Option String) (newId : String) (incOk : Bool)
    (h : uniquePairs db.apps) :
    uniquePairs (submitApplication db uid file jobIdField coverLetter newId incOk).2.apps := by
  rcases submit_state_cases db uid file jobIdField coverLetter newId incOk with
    heq | ⟨filename, jobId, _, _, hnone, heq⟩
  · rw [heq]; exact h
  · rw [heq]
    unfold uniquePairs at h ⊢
    rw [List.pairwise_append]
    refine ⟨h, List.pairwise_singleton _ _, ?_⟩
    intro a ha b hb
    have hb1 : b = { id := newId, job := jobId, user := uid, resume := filename,
                     coverLetter := coverLetter.getD "", status := "pending" } := by
      simpa using hb
    subst hb1
    have hnone2 : db.apps.find? (fun x => x.job == jobId && x.user == uid) = none := hnone
    have hfa := List.find?_eq_none.mp hnone2 a ha
    simp only [Bool.and_eq_true, beq_iff_eq, not_and] at hfa
    exact fun hc => hfa hc.1 hc.2

/-- Every sequence of submissions preserves the invariant. -/
theorem runSubmits_preserves_uniquePairs (reqs : List SubmitReq) :
    ∀ db : DB, uniquePairs db.apps → uniquePairs (runSubmits db reqs).apps := by
  induction reqs with
  | nil => intro db h; exact h
  | cons r rs ih =>
    intro db h
    simp only [runSubmits, List.foldl_cons]
    exact ih _ (submit_preserves_uniquePairs db r.uid r.file r.jobIdField
      r.coverLetter r.newId r.incOk h)

/-- C1: every sequence of application submissions preserves the invariant
that at most one Application exists per (job, user) pair, and a submit by an
applicant who already has an Application for that job is rejected with the
duplicate conflict response (HTTP 400, duplicate message), creating no new
record and leaving the whole database, the first Application included,
unchanged. -/
theorem c1_at_most_one_application_per_pair :
    (∀ (db : DB) (reqs : List SubmitReq),
      uniquePairs db.apps → uniquePairs (runSubmits db reqs).apps) ∧
    (∀ (db : DB) (uid filename jobId newId : String)
       (coverLetter : Option String) (incOk : Bool) (j : Job) (a0 : Application),
      isValidObjectId jobId = true →
      findJobById db jobId = some j →
      findApplication db jobId uid = some a0 →
      submitApplication db uid (some filename) (some jobId) coverLetter newId incOk =
        (⟨400, false, "You have already applied for this job"⟩, db)) := by
  constructor
  · exact fun db reqs h => runSubmits_preserves_uniquePairs reqs db h
  · intro db uid filename jobId newId coverLetter incOk j a0 hv hjob hdup
    have hne : jobId ≠ "" := by
      intro he
      rw [he] at hv
      exact absurd hv (by decide)
    simp only [submitApplication, if_neg hne, if_neg (not_not_intro hv), hjob, hdup]

/-- C1 witness: the invariant holds after a concrete pair of duplicate
submissions, and a concrete duplicate submit is rejected with the conflict
response and an unchanged database. -/
theorem c1_witness :
    uniquePairs (runSubmits c1wDb c1wReqs).apps ∧
    submitApplication c1wDb "u1" (some "r.pdf") (some c1wJid) (some "hi") "app9" true =
      (⟨400, false, "You have already applied for this job"⟩, c1wDb) :=
  ⟨c1_at_most_one_application_per_pair.1 c1wDb c1wReqs (by decide),
   c1_at_most_one_application_per_pair.2 c1wDb "u1" "r.pdf" c1wJid "app9"
     (some "hi") true (mkJob c1wJid "comp1" 1) c1wApp (by decide) rfl rfl⟩

/-- C2 (amended): a submission whose job exists, whose (job, user) pair has
no prior Application, whose resume file is attached, and whose cover letter
is nonempty (the applicationSchema marks coverLetter required, and a
required string rejects the empty string) creates exactly one Application
with status pending and increments exactly that job's applicationCount by
one, leaving every other field and every other Job unchanged. -/
theorem c2_successful_submit_effects
    (db : DB) (uid filename jobId coverLetter newId : String) (j : Job)
    (hv : isValidObjectId jobId = true)
    (hjob : findJobById db jobId = some j)
    (hnodup : (db.jobs.map Job.id).Nodup)
    (hnoapp : findApplication db jobId uid = none)
    (hfile : filename ≠ "") (hcl : coverLetter ≠ "") :
    submitApplication db uid (some filename) (some jobId) (some coverLetter) newId true =
      (⟨201, true, "Application submitted successfully"⟩,
       { jobs := db.jobs.map (fun j2 =>
           if j2.id = jobId then
             { j2 with applicationCount := j2.applicationCount + 1 } else j2),
         apps := db.apps ++ [{ id := newId, job := jobId, user := uid,
                               resume := filename, coverLetter := coverLetter,
                               status := "pending" }] }) := by
  have hne : jobId ≠ "" := by
    intro he
    rw [he] at hv
    exact absurd hv (by decide)
  have hval : applicationSchemaValidates
      { id := newId, job := jobId, user := uid, resume := filename,
        coverLetter := coverLetter, status := "pending" } = true := by
    simp [applicationSchemaValidates, validStatuses, hfile, hcl]
  simp only [submitApplication, if_neg hne, if_neg (not_not_intro hv), hjob, hnoapp,
    Option.getD_some, hval, if_true]
  rw [incApplicationCount_eq_map db.jobs jobId hnodup]

/-- C2 counterexample: a submission satisfying the three preconditions the
claim lists (job exists, no prior application, resume attached) but with an
empty cover letter does not create an Application: save rejects the record
and the handler answers 500, leaving the database unchanged. -/
theorem c2_counterexample :
    findJobById c2xDb c2xJid = some (mkJob c2xJid "comp2" 0) ∧
    findApplication c2xDb c2xJid "seeker2" = none ∧
    submitApplication c2xDb "seeker2" (some "cv.pdf") (some c2xJid) (some "") "app2x" true =
      (⟨500, false, "Server error during application submission"⟩, c2xDb) := by
  decide

/-- C2 witness: a concrete successful submission creates the pending
Application and increments the count of its job. -/
theorem c2_witness :
    submitApplication c2wDb "seeker3" (some "cv.pdf") (some c2wJid) (some "hello") "app3w" true =
      (⟨201, true, "Application submitted successfully"⟩,
       { jobs := c2wDb.jobs.map (fun j2 =>
           if j2.id = c2wJid then
             { j2 with applicationCount := j2.applicationCount + 1 } else j2),
         apps := c2wDb.apps ++ [{ id := "app3w", job := c2wJid, user := "seeker3",
                                  resume := "cv.pdf", coverLetter := "hello",
                                  status := "pending" }] }) :=
  c2_successful_submit_effects c2wDb "seeker3" "cv.pdf" c2wJid "hello" "app3w"
    (mkJob c2wJid "comp3" 0) (by decide) rfl (by decide) rfl (by decide) (by decide)

/-- C3 (amended): a company requesting the application list of a job it does
not own receives the same NotFound response (HTTP 404, message Job not
found or not authorized) as for a job that does not exist: the handler runs
one query filtering on both id and owner and cannot distinguish the two
cases; it never answers 403. -/
theorem c3_unowned_job_list_404
    (db : DB) (uid jobId : String)
    (hv : isValidObjectId jobId = true)
    (hown : ∀ j ∈ db.jobs, j.id = jobId → j.postedBy ≠ uid) :
    (getApplicationsForJob db uid jobId).1 =
      ⟨404, false, "Job not found or not authorized"⟩ := by
  have hnone : db.jobs.find? (fun j => j.id == jobId && j.postedBy == uid) = none := by
    refine List.find?_eq_none.mpr (fun j hj hpred => ?_)
    simp only [Bool.and_eq_true, beq_iff_eq] at hpred
    exact hown j hj hpred.1 hpred.2
  simp only [getApplicationsForJob, if_neg (not_not_intro hv), hnone]

/-- C3 counterexample: a job that exists and is owned by companyA; companyB
requesting its application list receives status 404, not the ForbiddenError
403 the claim asserts. -/
theorem c3_counterexample :
    c3xJob ∈ c3xDb.jobs ∧ c3xJob.id = c3xJid ∧ c3xJob.postedBy ≠ "companyB" ∧
    (getApplicationsForJob c3xDb "companyB" c3xJid).1.status = 404 ∧
    (getApplicationsForJob c3xDb "companyB" c3xJid).1.status ≠ 403 := by
  decide

/-- C3 witness: the amended theorem applied to the concrete unowned job. -/
theorem c3_witness :
    (getApplicationsForJob c3xDb "companyB" c3xJid).1 =
      ⟨404, false, "Job not found or not authorized"⟩ :=
  c3_unowned_job_list_404 c3xDb "companyB" c3xJid (by decide) (by decide)

/-- C4 (amended): the resume download handler answers 403 (Not authorized)
both when no Application references the filename and when matching
Applications exist but the requester is neither the applicant nor the
company owning the job, because one query combines the filename lookup with
the access filter; it answers 404 (Resume file not found) exactly when an
accessible matching Application exists but the file is absent from
storage. -/
theorem c4_resume_error_codes
    (db : DB) (files : List String) (uid filename : String) :
    ((∀ a ∈ db.apps, a.resume ≠ filename) →
      (getResume db files uid filename).1 =
        ⟨403, false, "Not authorized to access this file"⟩) ∧
    ((∀ a ∈ db.apps, a.resume = filename →
        a.user ≠ uid ∧ ∀ j ∈ db.jobs, j.postedBy = uid → j.id ≠ a.job) →
      (getResume db files uid filename).1 =
        ⟨403, false, "Not authorized to access this file"⟩) ∧
    (∀ a0 : Application,
      db.apps.find? (resumeAccessible db uid filename) = some a0 →
      files.contains filename = false →
      (getResume db files uid filename).1 =
        ⟨404, false, "Resume file not found"⟩) := by
  refine ⟨?_, ?_, ?_⟩
  · intro h
    have hnone : db.apps.find? (resumeAccessible db uid filename) = none := by
      refine List.find?_eq_none.mpr (fun a ha hpred => ?_)
      simp only [resumeAccessible, Bool.and_eq_true, beq_iff_eq] at hpred
      exact h a ha hpred.1
    simp only [getResume, hnone]
  · intro h
    have hnone : db.apps.find? (resumeAccessible db uid filename) = none := by
      refine List.find?_eq_none.mpr (fun a ha hpred => ?_)
      simp only [resumeAccessible, Bool.and_eq_true, Bool.or_eq_true, beq_iff_eq,
        List.any_eq_true] at hpred
      rcases hpred with ⟨hres, huser | ⟨j, hj, hpost, hid⟩⟩
      · exact (h a ha hres).1 huser
      · exact (h a ha hres).2 j hj hpost hid
    simp only [getResume, hnone]
  · intro a0 hfind hfiles
    simp only [getResume, hfind, hfiles]
    rw [if_pos (by simp)]

/-- C4 counterexample: no Application references ghost.pdf (the application
collection is empty) and the file is even present in storage, yet the
handler answers 403, not the 404 the claim asserts for a filename no
Application references. -/
theorem c4_counterexample :
    c4xDb.apps = [] ∧
    (getResume c4xDb ["ghost.pdf"] "u9" "ghost.pdf").1.status = 403 ∧
    (getResume c4xDb ["ghost.pdf"] "u9" "ghost.pdf").1.status ≠ 404 := by
  decide

/-- C4 witness: the amended theorem applied to concrete requests: a
filename no Application references answers 403; the applicant requesting
their own resume whose file is missing from storage answers 404. -/
theorem c4_witness :
    (getResume c4wDb [] "stranger" "nosuch.pdf").1 =
      ⟨403, false, "Not authorized to access this file"⟩ ∧
    (getResume c4wDb [] "owner4" "r4.pdf").1 =
      ⟨404, false, "Resume file not found"⟩ :=
  ⟨(c4_resume_error_codes c4wDb [] "stranger" "nosuch.pdf").1 (by decide),
   (c4_resume_error_codes c4wDb [] "owner4" "r4.pdf").2.2 c4wApp (by decide) (by decide)⟩

/-- C5: the two-step submission has no rollback or compensation: when the
count increment fails after the Application was persisted, the handler
answers 500 and the state keeps the new Application while the applicationCount
of its job is unchanged, exactly the orphaned state the claim rules out. -/
theorem c5_orphaned_application_reachable :
    submitApplication c5Db "seeker5" (some "r5.pdf") (some c5Jid) (some "hello") "app5" false =
      (⟨500, false, "Server error during application submission"⟩,
       { jobs := [mkJob c5Jid "comp5" 0],
         apps := [{ id := "app5", job := c5Jid, user := "seeker5",
                    resume := "r5.pdf", coverLetter := "hello", status := "pending" }] }) := by
  decide

/-- C6: the claim fails on the code: jobRoutes.js never requires mongoose,
so the first statement of the GET /api/jobs/:id handler raises a
ReferenceError inside the try block and the catch block answers 500 for
every request, malformed id or not; the intended 400 branch is unreachable. -/
theorem c6_get_job_by_id_always_500 :
    jobRoutesHasMongoose = false ∧
    ∀ (db : DB) (uid role idStr : String),
      getJobById db uid role idStr =
        (⟨500, false, "Server error while fetching job"⟩, none) :=
  ⟨rfl, fun _ _ _ _ => rfl⟩

/-- C7: the claim fails on the code: jobRoutes.js registers the
parameterized /:id route before /my, so GET /api/jobs/my dispatches to the
byId handler with id my and the listMine handler is unreachable; the
response is the 500 of the byId handler (the unbound mongoose name), not
200 with the jobs posted by the caller. -/
theorem c7_jobs_my_route_shadowed :
    dispatchJobGet "my" = some JobGetHandler.byId ∧
    ∀ (db : DB) (uid : String),
      handleJobGet db uid "company" "my" =
        (⟨500, false, "Server error while fetching job"⟩, none) :=
  ⟨by decide, fun _ _ => rfl⟩

/-- C8: a login whose email matches no user and a login whose email matches
a user but whose password does not verify against the stored hash receive
the same response: status 400, message Invalid credentials; the response
does not reveal whether the account exists. -/
theorem c8_login_enumeration_resistance
    (users : List User) (verify : String → String → Bool)
    (e1 e2 p1 p2 h : String) (u : User)
    (he1 : jsToLower (jsTrim e1) ≠ "") (hp1 : jsTrim p1 ≠ "")
    (he2 : jsToLower (jsTrim e2) ≠ "") (hp2 : jsTrim p2 ≠ "")
    (hfind1 : users.find? (fun v => v.email == jsToLower (jsTrim e1)) = none)
    (hfind2 : users.find? (fun v => v.email == jsToLower (jsTrim e2)) = some u)
    (hpw : u.password = some h)
    (hver : verify (jsTrim p2) h = false) :
    login users verify (some e1) (some p1) = ⟨400, false, "Invalid credentials"⟩ ∧
    login users verify (some e2) (some p2) = ⟨400, false, "Invalid credentials"⟩ := by
  constructor
  · simp only [login, Option.map_some', Option.getD_some]
    rw [if_neg (not_or.mpr ⟨he1, hp1⟩)]
    simp only [hfind1]
  · simp only [login, Option.map_some', Option.getD_some]
    rw [if_neg (not_or.mpr ⟨he2, hp2⟩)]
    simp only [hfind2, hpw, hver, Bool.false_eq_true, if_false]

/-- C8 witness: with one stored user and a comparison oracle that rejects,
a login for an absent email and a login for the stored email with a wrong
password produce the identical Invalid credentials response. -/
theorem c8_witness :
    login [c8User] (fun _ _ => false) (some "a@x.com") (some "pw1234") =
      ⟨400, false, "Invalid credentials"⟩ ∧
    login [c8User] (fun _ _ => false) (some "b@x.com") (some "pw1234") =
      ⟨400, false, "Invalid credentials"⟩ :=
  c8_login_enumeration_resistance [c8User] (fun _ _ => false)
    "a@x.com" "b@x.com" "pw1234" "pw1234" "h1" c8User
    (by decide) (by decide) (by decide) (by decide) rfl rfl rfl rfl

/-- C9: the code contradicts the claim: applicationSchema marks coverLetter
required, and a required mongoose string rejects the empty string, so a
submission with every other precondition satisfied but no cover letter
(defaulted to the empty string by the handler) makes save throw; the route
answers 500 and creates no Application, instead of the 201 the claim
asserts. -/
theorem c9_empty_cover_letter_fails :
    findJobById c9Db c9Jid = some (mkJob c9Jid "comp9" 0) ∧
    findApplication c9Db c9Jid "seeker9" = none ∧
    applicationSchemaValidates
      { id := "app9", job := c9Jid, user := "seeker9", resume := "r9.pdf",
        coverLetter := "", status := "pending" } = false ∧
    submitApplication c9Db "seeker9" (some "r9.pdf") (some c9Jid) none "app9" true =
      (⟨500, false, "Server error during application submission"⟩, c9Db) := by
  decide

/-- C10: signup and login trim the password before hashing or comparing, so
padding a password with leading and trailing whitespace changes neither the
account created (when validation passes) nor the login outcome; the
minimum-length check runs on the untrimmed password, so a password of six
whitespace characters passes validateSignup and the created user stores the
hash of the empty string. -/
theorem c10_password_trimming :
    (∀ (users : List User) (hash : String → String)
       (name email p ws1 ws2 role newId : String),
      allWhitespace ws1 → allWhitespace ws2 →
      validateSignup (some name) (some email) (some p) = none →
      signup users hash (some name) (some email) (some (ws1 ++ p ++ ws2))
          (some role) newId =
        signup users hash (some name) (some email) (some p) (some role) newId) ∧
    (∀ (users : List User) (verify : String → String → Bool)
       (email p ws1 ws2 : String),
      allWhitespace ws1 → allWhitespace ws2 →
      login users verify (some email) (some (ws1 ++ p ++ ws2)) =
        login users verify (some email) (some p)) ∧
    (∀ (hash : String → String) (newId : String),
      validateSignup (some "Alice") (some "a@b.c") (some "      ") = none ∧
      signup [] hash (some "Alice") (some "a@b.c") (some "      ") none newId =
        (⟨201, true, "Registration successful"⟩,
         [{ id := newId, name := "Alice", email := "a@b.c",
            password := some (hash ""), role := "jobSeeker" }])) := by
  refine ⟨?_, ?_, ?_⟩
  · intro users hash name email p ws1 ws2 role newId hws1 hws2 hvalid
    simp only [validateSignup, Option.getD_some] at hvalid
    have hpne : ¬ (name = "" ∨ email = "" ∨ p = "") := by
      intro hor
      rw [if_pos hor] at hvalid
      exact Option.noConfusion hvalid
    have hema : validEmailFormat email = true := by
      by_contra hneg
      rw [if_neg hpne, if_pos hneg] at hvalid
      exact Option.noConfusion hvalid
    have hlen : ¬ (p.length < 6) := by
      intro hlt
      rw [if_neg hpne, if_neg (not_not_intro hema), if_pos hlt] at hvalid
      exact Option.noConfusion hvalid
    have hplen : 6 ≤ (ws1 ++ p ++ ws2).length := by
      rw [String.length_append, String.length_append]
      omega
    have hpadne : (ws1 ++ p ++ ws2) ≠ "" := by
      intro he
      have h0 : (ws1 ++ p ++ ws2).length = 0 := by rw [he]; rfl
      omega
    have hvalid2 : validateSignup (some name) (some email)
        (some (ws1 ++ p ++ ws2)) = none := by
      simp only [validateSignup, Option.getD_some]
      rw [if_neg (by push_neg at hpne ⊢; exact ⟨hpne.1, hpne.2.1, hpadne⟩),
        if_neg (not_not_intro hema), if_neg (by omega)]
    have hvalid3 : validateSignup (some name) (some email) (some p) = none := by
      simp only [validateSignup, Option.getD_some]
      rw [if_neg hpne, if_neg (not_not_intro hema), if_neg hlen]
    simp only [signup, hvalid2, hvalid3, Option.getD_some,
      jsTrim_pad ws1 p ws2 hws1 hws2]
  · intro users verify email p ws1 ws2 hws1 hws2
    simp only [login, Option.map_some', Option.getD_some,
      jsTrim_pad ws1 p ws2 hws1 hws2]
  · intro hash newId
    exact ⟨rfl, rfl⟩

/-- C10 witness: concrete instances: the same account from a padded and an
unpadded password, identical login behavior under padding, and the
six-space password passing validation. -/
theorem c10_witness :
    signup [] (fun s => s ++ "#h") (some "Alice") (some "a@b.c")
        (some (" " ++ "secret" ++ " ")) (some "jobSeeker") "u10" =
      signup [] (fun s => s ++ "#h") (some "Alice") (some "a@b.c")
        (some "secret") (some "jobSeeker") "u10" ∧
    login [] (fun _ _ => false) (some "a@b.c") (some (" " ++ "pw" ++ " ")) =
      login [] (fun _ _ => false) (some "a@b.c") (some "pw") ∧
    validateSignup (some "Alice") (some "a@b.c") (some "      ") = none :=
  ⟨c10_password_trimming.1 [] (fun s => s ++ "#h") "Alice" "a@b.c" "secret"
      " " " " "jobSeeker" "u10" (by decide) (by decide) (by decide),
   c10_password_trimming.2.1 [] (fun _ _ => false) "a@b.c" "pw" " " " "
      (by decide) (by decide),
   (c10_password_trimming.2.2 (fun s => s ++ "#h") "u10").1⟩

end JobBoard
